import Mathlib

/-!
Verification of the RDP (remote debugging protocol) client of
`packages/mcp-server/src/rdp/client.ts` together with the connection-state
helpers of `packages/mcp-server/src/rdp/actors.ts`.

JavaScript strings are modelled as lists of UTF-16 code units (`JStr`),
which is exactly the representation `String.prototype.slice`, `indexOf`,
`.length` and `parseInt` operate on.  Stateful methods of `RDPClient` are
modelled as explicit state-passing functions over `RDPClientModel`.  The
unbounded `while (true)` framing loop is modelled with explicit fuel
(`processBuffer`), since — as proved below — the source loop does not
terminate on all inputs.
-/

namespace ZRDP

/-- JavaScript string: a finite sequence of UTF-16 code units. -/
abbrev JStr := List Nat

/-! ## Decimal rendering of a JS number (template literal of a Nat)

`${n}` for a non-negative integer renders its decimal digits.  The helper
carries fuel to keep the definition structurally recursive (kernel
reducible); `toDecimalUnits n` uses fuel `n + 1`, which is always enough
because the recursion divides by 10. -/

def toDecimalAux : Nat → Nat → JStr
  | 0, _ => []
  | fuel + 1, n => if n < 10 then [48 + n] else toDecimalAux fuel (n / 10) ++ [48 + n % 10]

/-- Decimal digit code units of a natural number, most significant first. -/
def toDecimalUnits (n : Nat) : JStr := toDecimalAux (n + 1) n

/-! ## JavaScript primitive string operations -/

/-- Clamp a JS slice index to `[0, len]`: negative indices count from the
end (`max (len + i) 0`), non-negative ones are capped at `len`. -/
def jsClamp (len : Nat) (i : Int) : Nat :=
  if i < 0 then len - (-i).toNat else min i.toNat len

/-- JavaScript `s.slice(a, b)` on code units. -/
def jsSlice (s : JStr) (a b : Int) : JStr :=
  (s.take (jsClamp s.length b)).drop (jsClamp s.length a)

/-- JavaScript `s.slice(a)` (one-argument form). -/
def jsSliceFrom (s : JStr) (a : Int) : JStr := jsSlice s a s.length

/-- Index of the first `:` (code unit 58), as used by `buffer.indexOf(":")`
(the source only compares the result against `-1`, so `Option Nat`). -/
def indexOfColon : JStr → Option Nat
  | [] => none
  | u :: rest => if u = 58 then some 0 else (indexOfColon rest).map (· + 1)

/-- Code units treated as whitespace by `parseInt`. -/
def isWSU (u : Nat) : Bool :=
  u = 9 ∨ u = 10 ∨ u = 11 ∨ u = 12 ∨ u = 13 ∨ u = 32 ∨ u = 160 ∨
    u = 0x2028 ∨ u = 0x2029 ∨ u = 0xFEFF

/-- Decimal digit code units `'0'..'9'`. -/
def isDigitU (u : Nat) : Bool := 48 ≤ u ∧ u ≤ 57

/-- Value of a run of decimal digit code units. -/
def digitsVal (ds : JStr) : Nat := ds.foldl (fun acc u => 10 * acc + (u - 48)) 0

/-- JavaScript `parseInt(s, 10)`: skip leading whitespace, read an optional
sign, then the longest run of decimal digits; `none` models `NaN` (no
digits).  Note that a leading `-` produces a *negative* result, not `NaN`. -/
def parseIntDec (s : JStr) : Option Int :=
  match s.dropWhile isWSU with
  | [] => none
  | c :: rest =>
    let signBody : Int × JStr :=
      if c = 45 then (-1, rest) else if c = 43 then (1, rest) else (1, c :: rest)
    let ds := signBody.2.takeWhile isDigitU
    if ds = [] then none else some (signBody.1 * (digitsVal ds : Int))

/-! ## Connection state (`actors.ts`) -/

/-- Root actor info captured from the intro packet (`RootActor`). -/
structure RootActorInfo where
  actorID : String
  applicationType : String
  traits : List (String × Bool)
deriving DecidableEq

/-- Current tab/target info (`TabActor` fields stored by the client). -/
structure TabActorInfo where
  actorID : String
  title : String
  url : String
  outerWindowID : Option Nat
deriving DecidableEq

/-- `ConnectionState` of `actors.ts`. -/
structure ConnectionState where
  connected : Bool
  root : Option RootActorInfo
  currentTab : Option TabActorInfo
  consoleActor : Option String
  inspectorActor : Option String
deriving DecidableEq

/-- `createConnectionState()`: a fresh state with only `connected: false`. -/
def createConnectionState : ConnectionState :=
  { connected := false, root := none, currentTab := none,
    consoleActor := none, inspectorActor := none }

/-- How long to trust a cached console actor (`ACTOR_CACHE_TTL_MS`). -/
def ACTOR_CACHE_TTL_MS : Nat := 30000

/-- The mutable fields of `RDPClient` relevant to the claims.  Pending
requests are identified by their numeric message counter value; the socket
is modelled by whether one is present (`this.socket !== null`). -/
structure RDPClientModel where
  socket : Bool
  state : ConnectionState
  pendingRequests : List Nat
  buffer : JStr
  consoleActorCachedAt : Nat
  consecutiveFailures : Nat
  keepaliveTimer : Bool
deriving DecidableEq

/-- `invalidateActorCache()`: drop the console actor, the current tab and
the cache timestamp. -/
def invalidateActorCache (c : RDPClientModel) : RDPClientModel :=
  { c with
    state := { c.state with consoleActor := none, currentTab := none },
    consoleActorCachedAt := 0 }

/-- `disconnect()`: stop keepalive, destroy and discard the socket, reset
the connection state, and reject every pending request with a
"Connection closed" error.  The second component lists the rejections
performed (request id, error message). -/
def disconnect (c : RDPClientModel) : RDPClientModel × List (Nat × String) :=
  ({ c with
      keepaliveTimer := false,
      socket := false,
      state := createConnectionState,
      pendingRequests := [] },
   c.pendingRequests.map (fun r => (r, "Connection closed")))

/-- The synchronous part of `reconnect()` that runs before any new
connection is attempted: invalidate the actor cache, clear `root`, reset
the cache timestamp, then `disconnect()` (which rejects all pending
requests).  The `delay` and the subsequent `connect()` happen after this. -/
def reconnectPrep (c : RDPClientModel) : RDPClientModel × List (Nat × String) :=
  let c1 := invalidateActorCache c
  let c2 := { c1 with
                state := { c1.state with root := none },
                consoleActorCachedAt := 0 }
  disconnect c2

/-- `isActorCacheFresh()`: a console actor is present and its age
(`Date.now() - consoleActorCachedAt`) is below the TTL. -/
def isActorCacheFresh (c : RDPClientModel) (now : Nat) : Bool :=
  match c.state.consoleActor with
  | none => false
  | some _ => decide (now - c.consoleActorCachedAt < ACTOR_CACHE_TTL_MS)

/-- The actor-resolution phase of `evaluateJS` (lines 549-563): if the
cache is not fresh, invalidate it; if no console actor remains, run
discovery (`ensureConsoleActor`, whose network interaction is abstracted
by the actor id `discovered` it would resolve) and stamp the cache time.
Returns the updated client, whether discovery ran, and the actor the
evaluation request is then addressed to. -/
def evalActorPhase (c : RDPClientModel) (now : Nat) (discovered : String) :
    RDPClientModel × Bool × String :=
  let c1 := if isActorCacheFresh c now then c else invalidateActorCache c
  match c1.state.consoleActor with
  | some actor => (c1, false, actor)
  | none =>
    ({ c1 with
        state := { c1.state with consoleActor := some discovered },
        consoleActorCachedAt := now },
     true, discovered)

/-- Backoff delay for connection-error retries: `Math.min(1000 *
Math.pow(2, consecutiveFailures - 1), 5000)` (same expression in
`evaluateJS` and `withRetry`). -/
def backoffMs (consecutiveFailures : Nat) : Nat :=
  min (1000 * 2 ^ (consecutiveFailures - 1)) 5000

/-! ## Frame codec -/

/-- Outbound framing in `sendMessage`: `` `${json.length}:${json}` ``.
`json.length` is the UTF-16 code-unit count of the serialized message. -/
def encodeFrame (json : JStr) : JStr := toDecimalUnits json.length ++ 58 :: json

/-- Byte length of the UTF-8 encoding of a UTF-16 code-unit sequence (the
spec's notion of payload length; a surrogate pair encodes to 4 bytes, a
lone surrogate to the 3 bytes of U+FFFD, as Node's utf8 encoder does).
This definition follows the spec's wording, for comparison against
`encodeFrame`; the source itself never computes a byte length. -/
def utf8ByteLength : JStr → Nat
  | [] => 0
  | [u] => if u < 0x80 then 1 else if u < 0x800 then 2 else 3
  | u :: v :: rest =>
    if u < 0x80 then 1 + utf8ByteLength (v :: rest)
    else if u < 0x800 then 2 + utf8ByteLength (v :: rest)
    else if 0xD800 ≤ u ∧ u < 0xDC00 then
      if 0xDC00 ≤ v ∧ v < 0xE000 then 4 + utf8ByteLength rest
      else 3 + utf8ByteLength (v :: rest)
    else 3 + utf8ByteLength (v :: rest)

/-- The frame the spec describes: decimal UTF-8 byte count of the payload,
then a colon, then the payload. -/
def encodeFrameSpec (json : JStr) : JStr :=
  toDecimalUnits (utf8ByteLength json) ++ 58 :: json

/-- Outcome of one iteration of the `while (true)` loop of
`processBuffer()`. -/
inductive BufStep where
  /-- One of the two `break` statements ran: no colon yet, or the payload
  is not yet fully buffered. -/
  | wait
  /-- The length field did not parse (`isNaN`): skip one code unit and
  continue. -/
  | skip (rest : JStr)
  /-- A frame was sliced out of the buffer; `rest` is the new buffer. -/
  | frame (payload : JStr) (rest : JStr)
deriving DecidableEq

/-- One iteration of the loop body of `processBuffer()`: find the first
colon, `parseInt` the text before it, and either wait, resynchronize by
one code unit, or slice out `length` code units of payload after the
colon. -/
def processStep (buf : JStr) : BufStep :=
  match indexOfColon buf with
  | none => .wait
  | some colonIndex =>
    match parseIntDec (jsSlice buf 0 (colonIndex : Int)) with
    | none => .skip (jsSliceFrom buf 1)
    | some length =>
      let messageStart : Int := (colonIndex : Int) + 1
      let messageEnd : Int := messageStart + length
      if (buf.length : Int) < messageEnd then .wait
      else .frame (jsSlice buf messageStart messageEnd) (jsSliceFrom buf messageEnd)

/-- The `processBuffer()` loop, with explicit fuel bounding the number of
iterations (the source loop is unbounded; fuel is needed because, as
proved below, it does not terminate on every buffer).  Returns the list
of extracted frame payloads (each of which the source then hands to
`JSON.parse`) and the remaining buffer. -/
def processBuffer : Nat → JStr → List JStr × JStr
  | 0, buf => ([], buf)
  | fuel + 1, buf =>
    match processStep buf with
    | .wait => ([], buf)
    | .skip rest => processBuffer fuel rest
    | .frame payload rest =>
      let r := processBuffer fuel rest
      (payload :: r.1, r.2)

/-- `handleData(data)`: append the chunk to the buffer and run
`processBuffer()`.  Fuel `length + 1` covers every terminating run, since
each non-final iteration of a terminating run consumes at least one code
unit. -/
def handleData (buffer data : JStr) : List JStr × JStr :=
  processBuffer ((buffer ++ data).length + 1) (buffer ++ data)

/-- The buffer `"-3:x"`: code units of a frame whose length field is a
negative integer. -/
def stallBuffer : JStr := [45, 51, 58, 120]

/-! ## Message dispatch (`handleMessage`) -/

/-- A JSON field value, as far as dispatch inspects one. -/
inductive JVal where
  | jstr (s : String)
  | jnum (n : Int)
  | jbool (b : Bool)
  | jnull
  | jobj
deriving DecidableEq

/-- A parsed RDP message: a JSON object, i.e. key-value pairs with
distinct keys. -/
abbrev RMessage := List (String × JVal)

/-- Field lookup (`message.k`). -/
def getField (m : RMessage) (k : String) : Option JVal :=
  (m.find? (fun kv => kv.1 == k)).map (·.2)

/-- Field presence (`"k" in message`). -/
def hasField (m : RMessage) (k : String) : Bool := (getField m k).isSome

/-- `EVENT_TYPES`: unsolicited notification types. -/
def EVENT_TYPES : List String :=
  ["frameUpdate", "tabNavigated", "newSource", "tabDetached",
   "workerListChanged", "documentEvent", "pageError", "consoleAPICall",
   "reflowActivity", "styleSheetsAdded", "styleSheetsRemoved"]

/-- `ACTOR_INVALIDATING_EVENTS`: events after which cached actors are
stale. -/
def ACTOR_INVALIDATING_EVENTS : List String :=
  ["tabNavigated", "tabDetached", "frameUpdate", "workerListChanged"]

/-- The `message.type` value, when it is a string (the only case in which
the truthy `messageType` can be a member of the string set
`EVENT_TYPES`). -/
def messageEventType (m : RMessage) : Option String :=
  match getField m "type" with
  | some (.jstr s) => some s
  | _ => none

/-- The event test `messageType && EVENT_TYPES.has(messageType)` (an empty
string is falsy). -/
def isEventMessage (m : RMessage) : Bool :=
  match messageEventType m with
  | some t => !(t == "") && EVENT_TYPES.contains t
  | none => false

/-- The `evaluateJSAsync` acknowledgment test: a `resultID` key, no
`type`, no `result`, and at most two keys in total. -/
def isAckMessage (m : RMessage) : Bool :=
  hasField m "resultID" && !hasField m "type" && !hasField m "result" &&
    decide (m.length ≤ 2)

/-- Observable effect of `handleMessage` on top of the pending-request
queue update. -/
inductive Dispatch where
  /-- Emitted as an event; `invalidatesActors` records whether the actor
  cache was invalidated first. -/
  | event (invalidatesActors : Bool)
  /-- Acknowledgment frame silently discarded. -/
  | ackDropped
  /-- The oldest pending request was settled: resolved, or rejected when
  the message carries an `error` field. -/
  | settle (id : Nat) (rejected : Bool)
  /-- No request pending: emitted as an unsolicited message. -/
  | unsolicited
deriving DecidableEq

/-- `handleMessage(message)` over the pending-request queue (a `Map`
iterated in insertion order; the head of the list is the oldest entry). -/
def handleMessage (pending : List Nat) (m : RMessage) : List Nat × Dispatch :=
  if isEventMessage m then
    (pending, .event (match messageEventType m with
      | some t => ACTOR_INVALIDATING_EVENTS.contains t
      | none => false))
  else if isAckMessage m then (pending, .ackDropped)
  else
    match pending with
    | [] => ([], .unsolicited)
    | p :: rest => (rest, .settle p (hasField m "error"))

/-- Deliver a sequence of parsed messages, collecting the dispatch
outcomes in order. -/
def handleMessages (pending : List Nat) : List RMessage → List Nat × List Dispatch
  | [] => (pending, [])
  | m :: ms =>
    let r1 := handleMessage pending m
    let r2 := handleMessages r1.1 ms
    (r2.1, r1.2 :: r2.2)

/-! ## Value decoder (grips) -/

/-- Values that pass the `typeof grip !== "object"` test (plus
`null`/`undefined`, which are returned unchanged even earlier). -/
inductive GripPrim where
  | gstr (s : String)
  | gnum (n : Int)
  | gbool (b : Bool)
  | gnull
  | gundefined
deriving DecidableEq

mutual

/-- The tagged serialized-value representation (`GripValue`). -/
inductive Grip where
  | prim (p : GripPrim)
  /-- `{type: "longString", initial, length, actor}`. -/
  | longString (initial : String) (length : Nat) (actor : String)
  /-- `{type: "object", class, preview?}`. -/
  | objectGrip (cls : String) (preview : Option GripPreview)
  /-- `{type: "symbol", name}`. -/
  | symbol (name : String)
  /-- An object grip with a `type` other than the recognized ones; it
  reaches the final `return grip`. -/
  | otherObject

/-- A `preview` object: it may carry an `items` array and/or an
`ownProperties` object. -/
inductive GripPreview where
  | mk (items : Option (List Grip)) (ownProperties : Option (List (String × Grip)))

end

mutual

/-- `RDPClient.gripToValue` results: plain values, plus the raw grip that
is returned when a long string needs the async path (and for unrecognized
object grips). -/
inductive RValue where
  | prim (p : GripPrim)
  | str (s : String)
  | arr (l : List RValue)
  | obj (l : List (String × RValue))
  /-- `Symbol.for(name)`. -/
  | symbolFor (name : String)
  | rawGrip (g : Grip)

end

mutual

/-- `RDPClient.gripToValue(grip)` (synchronous, simplified decoder).  A
long-string grip is returned as its `initial` chunk only when `initial`
is truthy (non-empty) and already covers the declared length; otherwise
the raw grip is returned for the caller to use the async path.  An
`Array`-classed object grip with preview items decodes element-wise; an
object grip with `ownProperties` decodes to a mapping; any other object
grip decodes to the placeholder string `[Class]`. -/
def gripToValue : Grip → RValue
  | .prim p => .prim p
  | .longString initial len actor =>
    if initial ≠ "" ∧ len ≤ initial.length then .str initial
    else .rawGrip (.longString initial len actor)
  | .objectGrip cls none => .str ("[" ++ cls ++ "]")
  | .objectGrip cls (some (.mk (some its) props)) =>
    if cls = "Array" then .arr (gripToValueList its)
    else
      match props with
      | some ps => .obj (gripToValueProps ps)
      | none => .str ("[" ++ cls ++ "]")
  | .objectGrip _ (some (.mk none (some ps))) => .obj (gripToValueProps ps)
  | .objectGrip cls (some (.mk none none)) => .str ("[" ++ cls ++ "]")
  | .symbol name => .symbolFor name
  | .otherObject => .rawGrip .otherObject

/-- Element-wise decoding of `preview.items`. -/
def gripToValueList : List Grip → List RValue
  | [] => []
  | g :: gs => gripToValue g :: gripToValueList gs

/-- Per-property decoding of `preview.ownProperties`. -/
def gripToValueProps : List (String × Grip) → List (String × RValue)
  | [] => []
  | (k, g) :: rest => (k, gripToValue g) :: gripToValueProps rest

end

/-- `RDPClient.isLongString(value)`: an object with `type === "longString"`
and an `actor` field. -/
def isLongStringV : RValue → Bool
  | .rawGrip (.longString _ _ _) => true
  | _ => false

/-- `fetchLongString(actor, length)`: issue a `substring` request for
`[0, length)` to the string's actor.  The request/response exchange is
abstracted by the oracle `fetch actor start endIndex`. -/
def fetchLongString (fetch : String → Nat → Nat → String)
    (actor : String) (length : Nat) : String :=
  fetch actor 0 length

/-- `gripToValueAsync(grip)`: decode synchronously, then resolve a
long-string grip by fetching its full content. -/
def gripToValueAsync (fetch : String → Nat → Nat → String) (g : Grip) : RValue :=
  match gripToValue g with
  | .rawGrip (.longString _ len actor) =>
    .str (fetchLongString fetch actor len)
  | v => v

/-- Result of the guard at the top of `connect()`. -/
inductive ConnectAction where
  | resolveImmediately
  | openSocket
deriving DecidableEq

/-- The guard at the top of `connect()`: if already connected with a
socket present it returns at once; otherwise the method proceeds to open
a socket (the asynchronous branch, represented only by its action tag). -/
def connectGuard (c : RDPClientModel) : RDPClientModel × ConnectAction :=
  if c.state.connected ∧ c.socket then (c, .resolveImmediately)
  else (c, .openSocket)

/-! ## Theorems -/

/-- C9: with base 1000 ms, cap 5000 ms and exponent `consecutiveFailures - 1`,
consecutive connection-error counts 1, 2, 3, 4 produce backoff delays of
exactly 1000, 2000, 4000 and 5000 ms; the uncapped fourth value would be
8000, which the cap reduces to 5000. -/
theorem backoff_schedule :
    backoffMs 1 = 1000 ∧ backoffMs 2 = 2000 ∧ backoffMs 3 = 4000 ∧
      backoffMs 4 = 5000 ∧ 1000 * 2 ^ (4 - 1) = 8000 := by
  decide

/-- C10: calling `connect()` while the connection flag is set and a socket
is present resolves immediately without opening a socket; the whole client
state (connection state, cached root, cached execution actor, pending
requests) is returned unchanged. -/
theorem connect_noop_when_connected (c : RDPClientModel)
    (h1 : c.state.connected = true) (h2 : c.socket = true) :
    connectGuard c = (c, ConnectAction.resolveImmediately) := by
  simp [connectGuard, h1, h2]

/-- Witness for C10 at a concrete connected client. -/
theorem connect_noop_when_connected_witness :
    connectGuard
        ⟨true, ⟨true, none, none, some "console1", none⟩, [4, 5], [], 7, 0, true⟩ =
      (⟨true, ⟨true, none, none, some "console1", none⟩, [4, 5], [], 7, 0, true⟩,
        ConnectAction.resolveImmediately) :=
  connect_noop_when_connected _ rfl rfl

/-- C6: the part of `reconnect()` that runs before a new connection is
attempted rejects every pending request with a "Connection closed" error,
empties the pending-request collection, clears the cached console actor
(and current tab), clears the cached root info, and resets the cache
timestamp and socket. -/
theorem reconnect_clears_state (c : RDPClientModel) :
    (reconnectPrep c).1.pendingRequests = [] ∧
    (reconnectPrep c).2 = c.pendingRequests.map (fun r => (r, "Connection closed")) ∧
    (reconnectPrep c).1.state.consoleActor = none ∧
    (reconnectPrep c).1.state.currentTab = none ∧
    (reconnectPrep c).1.state.root = none ∧
    (reconnectPrep c).1.consoleActorCachedAt = 0 ∧
    (reconnectPrep c).1.socket = false := by
  simp [reconnectPrep, disconnect, invalidateActorCache, createConnectionState]

/-- C7: with the fixed TTL of 30000 ms, a console actor cached at time
`t0 = consoleActorCachedAt` is reused without discovery by an evaluate
call at time `t` when `t - t0 < TTL`; when `t - t0 ≥ TTL` the cache is
treated as stale and discovery is re-invoked (and the evaluation request
is addressed to the freshly discovered actor, with the cache restamped). -/
theorem actor_cache_ttl (c : RDPClientModel) (a d : String) (t : Nat)
    (hca : c.state.consoleActor = some a)
    (_hle : c.consoleActorCachedAt ≤ t) :
    (t - c.consoleActorCachedAt < ACTOR_CACHE_TTL_MS →
       evalActorPhase c t d = (c, false, a)) ∧
    (ACTOR_CACHE_TTL_MS ≤ t - c.consoleActorCachedAt →
       (evalActorPhase c t d).2.1 = true ∧
       (evalActorPhase c t d).2.2 = d ∧
       (evalActorPhase c t d).1.state.consoleActor = some d ∧
       (evalActorPhase c t d).1.consoleActorCachedAt = t) := by
  constructor
  · intro hfresh
    have hf : isActorCacheFresh c t = true := by
      simp [isActorCacheFresh, hca, hfresh]
    simp [evalActorPhase, hf, hca]
  · intro hstale
    have hf : isActorCacheFresh c t = false := by
      simp [isActorCacheFresh, hca]
      omega
    simp [evalActorPhase, hf, invalidateActorCache]

/-- Witness for C7: fresh reuse at age 10000 ms, stale re-discovery at age
39995 ms. -/
theorem actor_cache_ttl_witness :
    evalActorPhase ⟨true, ⟨true, none, none, some "a1", none⟩, [], [], 0, 0, true⟩
        10000 "d1" =
      (⟨true, ⟨true, none, none, some "a1", none⟩, [], [], 0, 0, true⟩, false, "a1") ∧
    (evalActorPhase ⟨true, ⟨true, none, none, some "a1", none⟩, [], [], 5, 0, true⟩
        40000 "d1").2.1 = true :=
  ⟨(actor_cache_ttl _ "a1" "d1" 10000 rfl (by decide)).1 (by decide),
   ((actor_cache_ttl _ "a1" "d1" 40000 rfl (by decide)).2 (by decide)).1⟩

/-- C5: a frame that carries `resultID` but no `type` field, no `result`
field and no further payload fields (at most two keys in total) is
consumed as an acknowledgment: no pending request is resolved or
rejected, nothing is published as an event, and the pending-request queue
is unchanged. -/
theorem ack_suppression (pending : List Nat) (m : RMessage)
    (hr : hasField m "resultID" = true) (ht : hasField m "type" = false)
    (hres : hasField m "result" = false) (hk : m.length ≤ 2) :
    handleMessage pending m = (pending, Dispatch.ackDropped) := by
  have hnone : getField m "type" = none := by
    cases h : getField m "type" with
    | none => rfl
    | some v => simp [hasField, h] at ht
  have hev : isEventMessage m = false := by
    simp [isEventMessage, messageEventType, hnone]
  have hack : isAckMessage m = true := by
    simp [isAckMessage, hr, ht, hres, hk]
  simp [handleMessage, hev, hack]

/-- Witness for C5: the acknowledgment `{resultID: 1, from: "conn1"}`
against a queue of two pending requests. -/
theorem ack_suppression_witness :
    handleMessage [7, 8] [("resultID", JVal.jnum 1), ("from", JVal.jstr "conn1")] =
      ([7, 8], Dispatch.ackDropped) :=
  ack_suppression [7, 8] _ (by decide) (by decide) (by decide) (by decide)

/-- C3: with requests `r1, r2, r3` pending in send order, delivering three
frames that are neither recognized event types nor acknowledgment frames
settles them in exactly that order — the i-th frame settles the i-th
request (rejected precisely when it carries an `error` field) — whatever
the frames' payloads are, and leaves the queue empty. -/
theorem fifo_correlation (r1 r2 r3 : Nat) (m1 m2 m3 : RMessage)
    (he1 : isEventMessage m1 = false) (ha1 : isAckMessage m1 = false)
    (he2 : isEventMessage m2 = false) (ha2 : isAckMessage m2 = false)
    (he3 : isEventMessage m3 = false) (ha3 : isAckMessage m3 = false) :
    handleMessages [r1, r2, r3] [m1, m2, m3] =
      ([], [Dispatch.settle r1 (hasField m1 "error"),
            Dispatch.settle r2 (hasField m2 "error"),
            Dispatch.settle r3 (hasField m3 "error")]) := by
  simp [handleMessages, handleMessage, he1, ha1, he2, ha2, he3, ha3]

/-- Witness for C3: three ordinary response frames settle requests 1, 2, 3
in order. -/
theorem fifo_correlation_witness :
    handleMessages [1, 2, 3]
        [[("from", JVal.jstr "conn1"), ("result", JVal.jnum 10)],
         [("from", JVal.jstr "conn1"), ("error", JVal.jstr "noSuchActor")],
         [("from", JVal.jstr "conn1"), ("result", JVal.jnum 30)]] =
      ([], [Dispatch.settle 1 false, Dispatch.settle 2 true,
            Dispatch.settle 3 false]) := by
  simpa using fifo_correlation 1 2 3 _ _ _
    (by decide) (by decide) (by decide) (by decide) (by decide) (by decide)

/-- C2, behaviour at the failing input: on the buffer `"-3:x"` the loop
body of `processBuffer()` neither breaks nor drops a byte — `parseInt`
yields `-3` (not `NaN`), `messageEnd` is `0`, and `buffer.slice(0)`
returns the buffer unchanged — so every iteration extracts an empty
pseudo-frame and leaves the buffer identical, and the `while (true)` loop
never terminates: no finite fuel ever consumes the malformed data. -/
theorem negative_length_stalls_buffer :
    processStep stallBuffer = .frame [] stallBuffer ∧
    ∀ fuel, (processBuffer fuel stallBuffer).2 = stallBuffer := by
  have h : processStep stallBuffer = .frame [] stallBuffer := by decide
  refine ⟨h, ?_⟩
  intro fuel
  induction fuel with
  | zero => simp [processBuffer]
  | succ n ih => simp [processBuffer, h, ih]

/-- C8, counterexample to the claim as stated: the long-string grip with
empty initial chunk and declared length 0 has an initial chunk that covers
the full declared length, yet the synchronous decoder does not return the
string — the truthiness test `longStr.initial && ...` fails on the empty
string and the raw grip is returned instead. -/
theorem longstring_empty_initial_counterexample :
    gripToValue (Grip.longString "" 0 "s1") ≠ RValue.str "" := by
  simp [gripToValue]

/-- C8 as amended: a long-string grip whose initial chunk is non-empty and
covers the full declared length decodes synchronously to that chunk; a
grip whose initial chunk is shorter than the declared length decodes
synchronously to the raw grip, and asynchronously the decoder issues a
substring fetch over the full range `[0, length)` to the string's own
actor and returns the fetched string. -/
theorem longstring_decode (i : String) (l : Nat) (a : String) :
    (i ≠ "" → l ≤ i.length → gripToValue (.longString i l a) = .str i) ∧
    (i.length < l →
      gripToValue (.longString i l a) = .rawGrip (.longString i l a) ∧
      ∀ fetch : String → Nat → Nat → String,
        gripToValueAsync fetch (.longString i l a) = .str (fetch a 0 l)) := by
  constructor
  · intro hne hlen
    simp [gripToValue, hne, hlen]
  · intro hlt
    have hcond : ¬(i ≠ "" ∧ l ≤ i.length) := by
      intro hc
      omega
    have hg : gripToValue (.longString i l a) = .rawGrip (.longString i l a) := by
      simp only [gripToValue, if_neg hcond]
    refine ⟨hg, fun fetch => ?_⟩
    simp [gripToValueAsync, hg, fetchLongString]

/-- Witness for C8: `{type:"longString", initial:"ab", length:5,
actor:"s1"}` decodes synchronously to the raw grip, and asynchronously —
with a stub answering the substring request with `"abcde"` — to exactly
`"abcde"`. -/
theorem longstring_decode_witness :
    gripToValue (Grip.longString "ab" 5 "s1") =
      RValue.rawGrip (Grip.longString "ab" 5 "s1") ∧
    gripToValueAsync (fun _ _ _ => "abcde") (Grip.longString "ab" 5 "s1") =
      RValue.str "abcde" :=
  ⟨((longstring_decode "ab" 5 "s1").2 (by decide)).1,
   ((longstring_decode "ab" 5 "s1").2 (by decide)).2 (fun _ _ _ => "abcde")⟩

/-- On an ASCII-only code-unit sequence the UTF-8 byte length equals the
UTF-16 code-unit count. -/
theorem utf8ByteLength_ascii (j : JStr) (h : ∀ u ∈ j, u < 128) :
    utf8ByteLength j = j.length := by
  induction j with
  | nil => rfl
  | cons u rest ih =>
    have hu : u < 128 := h u (by simp)
    have hrest : utf8ByteLength rest = rest.length :=
      ih (fun v hv => h v (by simp [hv]))
    cases rest with
    | nil => simp [utf8ByteLength, hu]
    | cons v rest2 =>
      simp only [utf8ByteLength, if_pos hu, hrest, List.length_cons]
      omega

/-- C1, counterexample to the claim as stated: for the payload `"é"`
(serialized JSON code units `[34, 233, 34]`, three UTF-16 code units but
four UTF-8 bytes), the frame written by `sendMessage` carries the length
field `3` — the code-unit count of `json.length` — where the claimed
byte-exact wire format requires `4`. -/
theorem byte_length_framing_counterexample :
    encodeFrame [34, 233, 34] ≠ encodeFrameSpec [34, 233, 34] := by
  decide

/-- C1 as amended: the frame is the decimal UTF-16 code-unit count of the
JSON payload, a colon, then the payload; whenever the serialized payload
is ASCII-only this coincides with the spec's byte-exact format (the
length field then equals the UTF-8 byte count of the payload, counted
over the payload only). -/
theorem encode_frame_ascii (j : JStr) (h : ∀ u ∈ j, u < 128) :
    encodeFrame j = encodeFrameSpec j := by
  simp [encodeFrame, encodeFrameSpec, utf8ByteLength_ascii j h]

/-- Witness for C1 (amended) at the ASCII payload `"{}"`. -/
theorem encode_frame_ascii_witness :
    encodeFrame [123, 125] = encodeFrameSpec [123, 125] :=
  encode_frame_ascii [123, 125] (by decide)

/-! ## Framing round-trip: helper lemmas -/

/-- Taking `min n length` is the same as taking `n`. -/
theorem take_min_length (s : JStr) (n : Nat) : s.take (min n s.length) = s.take n := by
  rw [List.take_eq_take]
  omega

/-- Clamping a non-negative index. -/
theorem jsClamp_natCast (len n : Nat) : jsClamp len (n : Int) = min n len := by
  simp [jsClamp]

/-- `slice` with non-negative indices is take-then-drop. -/
theorem jsSlice_natCast (s : JStr) (a b : Nat) :
    jsSlice s (a : Int) (b : Int) = (s.take b).drop a := by
  simp only [jsSlice, jsClamp_natCast]
  rw [take_min_length]
  rcases le_or_lt a s.length with h | h
  · rw [min_eq_left h]
  · rw [min_eq_right (le_of_lt h),
        List.drop_eq_nil_of_le (by simp only [List.length_take]; omega),
        List.drop_eq_nil_of_le (by simp only [List.length_take]; omega)]

/-- One-argument `slice` with a non-negative index is `drop`. -/
theorem jsSliceFrom_natCast (s : JStr) (a : Nat) :
    jsSliceFrom s (a : Int) = s.drop a := by
  rw [jsSliceFrom, jsSlice_natCast, List.take_length]

/-- Decimal rendering: nonempty, digits only, and `parseInt`-inverse of
`digitsVal`. -/
theorem toDecimalAux_spec (fuel : Nat) : ∀ n, n < fuel →
    toDecimalAux fuel n ≠ [] ∧ (∀ u ∈ toDecimalAux fuel n, 48 ≤ u ∧ u ≤ 57) ∧
      digitsVal (toDecimalAux fuel n) = n := by
  induction fuel with
  | zero => intro n h; omega
  | succ f ih =>
    intro n hn
    by_cases h10 : n < 10
    · refine ⟨by simp [toDecimalAux, h10], ?_, ?_⟩
      · intro u hu
        simp [toDecimalAux, h10] at hu
        omega
      · simp only [toDecimalAux, if_pos h10, digitsVal, List.foldl_cons, List.foldl_nil]
        omega
    · have hdiv : n / 10 < f := by omega
      obtain ⟨hne, hmem, hval⟩ := ih (n / 10) hdiv
      refine ⟨by simp [toDecimalAux, h10], ?_, ?_⟩
      · intro u hu
        simp only [toDecimalAux, if_neg h10, List.mem_append, List.mem_singleton] at hu
        rcases hu with hu | hu
        · exact hmem u hu
        · omega
      · have base : digitsVal (toDecimalAux f (n / 10) ++ [48 + n % 10]) =
            10 * digitsVal (toDecimalAux f (n / 10)) + (48 + n % 10 - 48) := by
          simp [digitsVal, List.foldl_append]
        simp only [toDecimalAux, if_neg h10]
        rw [base, hval]
        omega

/-- The decimal rendering of a number is never empty. -/
theorem toDecimalUnits_ne_nil (n : Nat) : toDecimalUnits n ≠ [] :=
  (toDecimalAux_spec (n + 1) n (by omega)).1

/-- The decimal rendering consists of digit code units only. -/
theorem toDecimalUnits_digits (n : Nat) : ∀ u ∈ toDecimalUnits n, 48 ≤ u ∧ u ≤ 57 :=
  (toDecimalAux_spec (n + 1) n (by omega)).2.1

/-- `digitsVal` recovers the rendered number. -/
theorem digitsVal_toDecimalUnits (n : Nat) : digitsVal (toDecimalUnits n) = n :=
  (toDecimalAux_spec (n + 1) n (by omega)).2.2

/-- No colon in the string means `indexOf` fails. -/
theorem indexOfColon_eq_none (s : JStr) (h : ∀ u ∈ s, u ≠ 58) :
    indexOfColon s = none := by
  induction s with
  | nil => rfl
  | cons u rest ih =>
    simp [indexOfColon, h u (by simp), ih (fun v hv => h v (by simp [hv]))]

/-- The first colon after a colon-free block sits at the block's length. -/
theorem indexOfColon_append (d t : JStr) (h : ∀ u ∈ d, u ≠ 58) :
    indexOfColon (d ++ 58 :: t) = some d.length := by
  induction d with
  | nil => simp [indexOfColon]
  | cons u rest ih =>
    simp [indexOfColon, h u (by simp), ih (fun v hv => h v (by simp [hv]))]

/-- A string of digit code units keeps all of itself under
`takeWhile isDigitU`. -/
theorem takeWhile_digits (s : JStr) (h : ∀ u ∈ s, 48 ≤ u ∧ u ≤ 57) :
    s.takeWhile isDigitU = s := by
  induction s with
  | nil => rfl
  | cons u rest ih =>
    have hu := h u (by simp)
    have hd : isDigitU u = true := by simp [isDigitU]; omega
    simp [List.takeWhile_cons, hd, ih (fun v hv => h v (by simp [hv]))]

/-- `parseInt` on a nonempty all-digit string yields its value. -/
theorem parseIntDec_digits (s : JStr) (hne : s ≠ [])
    (h : ∀ u ∈ s, 48 ≤ u ∧ u ≤ 57) :
    parseIntDec s = some ((digitsVal s : Nat) : Int) := by
  have hdw : s.dropWhile isWSU = s := by
    cases s with
    | nil => rfl
    | cons u rest =>
      have hu := h u (by simp)
      have hws : isWSU u = false := by simp [isWSU]; omega
      simp [List.dropWhile_cons, hws]
  cases s with
  | nil => exact absurd rfl hne
  | cons c rest =>
    have hc := h c (by simp)
    have h45 : ¬(c = 45) := by omega
    have h43 : ¬(c = 43) := by omega
    have htw : (c :: rest).takeWhile isDigitU = c :: rest := takeWhile_digits _ h
    simp only [parseIntDec, hdw, if_neg h45, if_neg h43, htw]
    simp

/-- A colon-free buffer makes the framing loop break at once. -/
theorem processStep_nocolon (s : JStr) (h : ∀ u ∈ s, u ≠ 58) :
    processStep s = .wait := by
  simp [processStep, indexOfColon_eq_none s h]

/-- A complete well-formed frame is sliced out whole, leaving an empty
buffer. -/
theorem processStep_complete (d j : JStr) (hne : d ≠ [])
    (hd : ∀ u ∈ d, 48 ≤ u ∧ u ≤ 57) (hval : digitsVal d = j.length) :
    processStep (d ++ 58 :: j) = .frame j [] := by
  have h58 : ∀ u ∈ d, u ≠ 58 := fun u hu => by have := hd u hu; omega
  have hidx : indexOfColon (d ++ 58 :: j) = some d.length :=
    indexOfColon_append d j h58
  have hslice0 : jsSlice (d ++ 58 :: j) 0 (d.length : Int) = d := by
    rw [show (0 : Int) = ((0 : Nat) : Int) from rfl, jsSlice_natCast, List.drop_zero]
    exact List.take_left d (58 :: j)
  have hlen : (d ++ 58 :: j).length = d.length + 1 + j.length := by
    simp; omega
  have hcond : ¬(((d ++ 58 :: j).length : Int) < (d.length : Int) + 1 + (j.length : Int)) := by
    rw [hlen]; push_cast; omega
  have e2 : ((d.length : Int) + 1 + (j.length : Int)) = ((d.length + 1 + j.length : Nat) : Int) := by
    push_cast; ring
  have hpayload : jsSlice (d ++ 58 :: j) ((d.length : Int) + 1) ((d.length : Int) + 1 + (j.length : Int)) = j := by
    rw [show ((d.length : Int) + 1) = ((d.length + 1 : Nat) : Int) from by push_cast; ring,
        show (((d.length + 1 : Nat) : Int) + (j.length : Int)) =
          ((d.length + 1 + j.length : Nat) : Int) from by push_cast; ring,
        jsSlice_natCast, List.take_of_length_le (hlen ▸ le_refl _)]
    rw [show d ++ 58 :: j = (d ++ [58]) ++ j from by simp,
        show d.length + 1 = (d ++ [58]).length from by simp]
    exact List.drop_left _ _
  have hrest : jsSliceFrom (d ++ 58 :: j) ((d.length : Int) + 1 + (j.length : Int)) = [] := by
    rw [e2, jsSliceFrom_natCast]
    exact List.drop_eq_nil_of_le (hlen ▸ le_refl _)
  simp only [processStep, hidx, hslice0, parseIntDec_digits d hne hd, hval,
    if_neg hcond, hpayload, hrest]

/-- A frame whose buffered payload is still shorter than the declared
length makes the loop break and wait for more data. -/
theorem processStep_incomplete (d t : JStr) (L : Nat) (hne : d ≠ [])
    (hd : ∀ u ∈ d, 48 ≤ u ∧ u ≤ 57) (hval : digitsVal d = L)
    (hlt : t.length < L) :
    processStep (d ++ 58 :: t) = .wait := by
  have h58 : ∀ u ∈ d, u ≠ 58 := fun u hu => by have := hd u hu; omega
  have hidx : indexOfColon (d ++ 58 :: t) = some d.length :=
    indexOfColon_append d t h58
  have hslice0 : jsSlice (d ++ 58 :: t) 0 (d.length : Int) = d := by
    rw [show (0 : Int) = ((0 : Nat) : Int) from rfl, jsSlice_natCast, List.drop_zero]
    exact List.take_left d (58 :: t)
  have hlen : (d ++ 58 :: t).length = d.length + 1 + t.length := by
    simp; omega
  have hcond : ((d ++ 58 :: t).length : Int) < (d.length : Int) + 1 + (L : Int) := by
    rw [hlen]; push_cast; omega
  simp only [processStep, hidx, hslice0, parseIntDec_digits d hne hd, hval,
    if_pos hcond]

/-- If the first iteration breaks, the loop returns the buffer unchanged
with no frames, for every fuel. -/
theorem processBuffer_of_wait (fuel : Nat) (s : JStr) (h : processStep s = .wait) :
    processBuffer fuel s = ([], s) := by
  cases fuel with
  | zero => rfl
  | succ n => simp [processBuffer, h]

/-- C4: framing round-trips under chunked delivery: for any payload `j`
and any split point `k` strictly inside the encoded frame, delivering the
first `k` code units yields no frame and leaves them buffered, and
delivering the remainder then yields exactly the one payload `j` with an
empty buffer. -/
theorem framing_roundtrip_chunked (j : JStr) (k : Nat)
    (_hk1 : 1 ≤ k) (hk2 : k < (encodeFrame j).length) :
    handleData [] ((encodeFrame j).take k) = ([], (encodeFrame j).take k) ∧
    handleData ((encodeFrame j).take k) ((encodeFrame j).drop k) = ([j], []) := by
  have hne : toDecimalUnits j.length ≠ [] := toDecimalUnits_ne_nil j.length
  have hdig : ∀ u ∈ toDecimalUnits j.length, 48 ≤ u ∧ u ≤ 57 :=
    toDecimalUnits_digits j.length
  have hval : digitsVal (toDecimalUnits j.length) = j.length :=
    digitsVal_toDecimalUnits j.length
  have henc : encodeFrame j = toDecimalUnits j.length ++ 58 :: j := rfl
  have hlen_e : (encodeFrame j).length = (toDecimalUnits j.length).length + 1 + j.length := by
    rw [henc]; simp; omega
  have hstep1 : processStep ((encodeFrame j).take k) = .wait := by
    rcases le_or_lt k (toDecimalUnits j.length).length with hk | hk
    · have hc1 : (encodeFrame j).take k = (toDecimalUnits j.length).take k := by
        rw [henc, List.take_append_eq_append_take,
            show k - (toDecimalUnits j.length).length = 0 from by omega]
        simp
      rw [hc1]
      apply processStep_nocolon
      intro u hu
      have := hdig u (List.take_subset _ _ hu)
      omega
    · have hsplit : (encodeFrame j).take k =
          toDecimalUnits j.length ++ 58 :: (j.take (k - (toDecimalUnits j.length).length - 1)) := by
        rw [henc,
            show toDecimalUnits j.length ++ 58 :: j =
              (toDecimalUnits j.length ++ [58]) ++ j from by simp,
            List.take_append_eq_append_take,
            List.take_of_length_le (show (toDecimalUnits j.length ++ [58]).length ≤ k from by
              simp; omega)]
        simp [Nat.sub_sub]
      rw [hsplit]
      apply processStep_incomplete _ _ j.length hne hdig hval
      simp [List.length_take]
      omega
  refine ⟨?_, ?_⟩
  · simp only [handleData, List.nil_append]
    exact processBuffer_of_wait _ _ hstep1
  · simp only [handleData, List.take_append_drop]
    have hstep2 : processStep (encodeFrame j) = .frame j [] := by
      rw [henc]
      exact processStep_complete _ j hne hdig hval
    have hnil : processBuffer (encodeFrame j).length [] = ([], []) :=
      processBuffer_of_wait _ _ rfl
    simp [processBuffer, hstep2, hnil]

/-- Witness for C4: the payload `"h"` (frame `3:"h"`) split after two code
units round-trips to exactly that payload. -/
theorem framing_roundtrip_chunked_witness :
    handleData [] ((encodeFrame [34, 104, 34]).take 2) =
      ([], (encodeFrame [34, 104, 34]).take 2) ∧
    handleData ((encodeFrame [34, 104, 34]).take 2) ((encodeFrame [34, 104, 34]).drop 2) =
      ([[34, 104, 34]], []) :=
  framing_roundtrip_chunked [34, 104, 34] 2 (by decide) (by decide)

end ZRDP
